import Mathlib

/-!
Shallow embedding of the oi-analyzer resilience layer:
the `CircuitBreaker` class, `retryWithBackoff`, the `/positions` express
handler with its module-level position cache (src/unnamed/part_001), and the
`TradingBackendService` operations (src/src/services/tradingBackend.ts).

JavaScript `undefined` on record fields is modelled with `Option`; wall-clock
time (`Date.now()`) is an explicit `Nat` parameter; a rejected promise /
thrown error is an explicit outcome constructor carrying the error value.
-/

namespace OIAnalyzer

/-! ## CircuitBreaker (src/unnamed/part_001, lines 12-53) -/

inductive BreakerState
  | closed
  | open_
  | halfOpen
deriving DecidableEq, Repr

structure CircuitBreaker where
  failureCount : Nat
  failureThreshold : Nat
  resetTimeout : Nat
  state : BreakerState
  nextAttempt : Nat
deriving DecidableEq, Repr

/-- The constructor: `failureCount = 0`, `state = 'CLOSED'`,
`nextAttempt = Date.now()`. -/
def CircuitBreaker.mk0 (threshold resetTimeout now : Nat) : CircuitBreaker :=
  { failureCount := 0, failureThreshold := threshold, resetTimeout := resetTimeout
    state := .closed, nextAttempt := now }

/-- `onSuccess()` (lines 40-43): zero the counter, close the breaker. -/
def onSuccess (b : CircuitBreaker) : CircuitBreaker :=
  { b with failureCount := 0, state := .closed }

/-- `onFailure()` (lines 45-52): increment the counter; at or past the
threshold, open the breaker and set `nextAttempt = now + resetTimeout`. -/
def onFailure (b : CircuitBreaker) (now : Nat) : CircuitBreaker :=
  if b.failureThreshold ≤ b.failureCount + 1 then
    { b with failureCount := b.failureCount + 1, state := .open_
             nextAttempt := now + b.resetTimeout }
  else
    { b with failureCount := b.failureCount + 1 }

/-- The behaviour of one invocation of the wrapped `fn`: the promise either
resolves with a value or rejects with an error. -/
inductive CallOutcome (α ε : Type)
  | success (a : α)
  | failure (e : ε)
deriving DecidableEq, Repr

/-- What `execute` does with the call: return the value, rethrow the
operation's error, or throw the breaker-open error without calling `fn`. -/
inductive ExecOutcome (α ε : Type)
  | result (a : α)
  | opError (e : ε)
  | breakerOpen
deriving DecidableEq, Repr

structure ExecStep (α ε : Type) where
  outcome : ExecOutcome α ε
  breaker : CircuitBreaker
  invoked : Bool
deriving DecidableEq, Repr

/-- `execute(fn)` (lines 22-38): in `OPEN` before `nextAttempt`, throw without
invoking `fn`; otherwise (moving `OPEN → HALF_OPEN` first) invoke `fn`, then
`onSuccess`/`onFailure` and return/rethrow. -/
def execute {α ε : Type} (b : CircuitBreaker) (now : Nat)
    (call : CallOutcome α ε) : ExecStep α ε :=
  if b.state = .open_ ∧ now < b.nextAttempt then
    { outcome := .breakerOpen, breaker := b, invoked := false }
  else
    let b1 := if b.state = .open_ then { b with state := .halfOpen } else b
    match call with
    | .success a => { outcome := .result a, breaker := onSuccess b1, invoked := true }
    | .failure e => { outcome := .opError e, breaker := onFailure b1 now, invoked := true }

/-- A sequence of consecutive failed calls, one at each listed time. -/
def failSeq (b : CircuitBreaker) : List Nat → CircuitBreaker
  | [] => b
  | t :: ts => failSeq (execute b t (.failure () : CallOutcome Unit Unit)).breaker ts

theorem failSeq_opens (ts : List Nat) :
    ∀ b : CircuitBreaker, b.state = .closed →
      b.failureCount + ts.length = b.failureThreshold → ts ≠ [] →
      (failSeq b ts).state = .open_ ∧
      (failSeq b ts).failureCount = b.failureThreshold := by
  induction ts with
  | nil => intro b _ _ hne; exact absurd rfl hne
  | cons t ts ih =>
    intro b hclosed hcount _
    have hlen : b.failureCount + ts.length + 1 = b.failureThreshold := by
      simp at hcount; omega
    rcases ts with _ | ⟨t', ts'⟩
    · have hthr : b.failureThreshold ≤ b.failureCount + 1 := by
        simp at hlen; omega
      have step : (execute b t (.failure () : CallOutcome Unit Unit)).breaker
          = { b with failureCount := b.failureCount + 1, state := .open_
                     nextAttempt := t + b.resetTimeout } := by
        simp [execute, hclosed, onFailure, hthr]
      simp only [failSeq, step]
      exact ⟨by simp, by simp at hlen; omega⟩
    · have hthr : ¬ b.failureThreshold ≤ b.failureCount + 1 := by
        simp at hlen; omega
      have step : (execute b t (.failure () : CallOutcome Unit Unit)).breaker
          = { b with failureCount := b.failureCount + 1 } := by
        simp [execute, hclosed, onFailure, hthr]
      simp only [failSeq, step]
      refine ih { b with failureCount := b.failureCount + 1 } hclosed ?_ (by simp)
      simp at hlen ⊢
      omega

/-- C1:  Starting from a freshly constructed breaker with failure threshold
`f ≥ 1`, after exactly `f` consecutive failed calls (at arbitrary times, with
no intervening success) the state is `OPEN`, and any call made strictly before
`nextAttempt` throws the breaker-open error without invoking the wrapped
operation and leaves the breaker unchanged. -/
theorem c1_threshold_failures_open_breaker
    (f rt n0 : Nat) (hf : 1 ≤ f) (ts : List Nat) (hlen : ts.length = f) :
    (failSeq (CircuitBreaker.mk0 f rt n0) ts).state = .open_ ∧
    ∀ (t : Nat) (c : CallOutcome Unit Unit),
      t < (failSeq (CircuitBreaker.mk0 f rt n0) ts).nextAttempt →
      (execute (failSeq (CircuitBreaker.mk0 f rt n0) ts) t c).outcome = .breakerOpen ∧
      (execute (failSeq (CircuitBreaker.mk0 f rt n0) ts) t c).invoked = false ∧
      (execute (failSeq (CircuitBreaker.mk0 f rt n0) ts) t c).breaker =
        failSeq (CircuitBreaker.mk0 f rt n0) ts := by
  have hne : ts ≠ [] := by
    intro h; rw [h] at hlen; simp at hlen; omega
  have hopen := failSeq_opens ts (CircuitBreaker.mk0 f rt n0) rfl (by simp [CircuitBreaker.mk0, hlen]) hne
  refine ⟨hopen.1, ?_⟩
  intro t c ht
  refine ⟨?_, ?_, ?_⟩ <;> simp [execute, hopen.1, ht]

/-- Witness for C1: threshold 3, failures at times 5, 6, 7; the breaker opens
and a call at time 30006 (before `nextAttempt = 7 + 30000`) is rejected
without invoking the operation. -/
theorem c1_threshold_failures_open_breaker_witness :
    (failSeq (CircuitBreaker.mk0 3 30000 0) [5, 6, 7]).state = .open_ ∧
    (execute (failSeq (CircuitBreaker.mk0 3 30000 0) [5, 6, 7]) 30006
      (.failure () : CallOutcome Unit Unit)).invoked = false ∧
    (execute (failSeq (CircuitBreaker.mk0 3 30000 0) [5, 6, 7]) 30006
      (.failure () : CallOutcome Unit Unit)).outcome = .breakerOpen := by
  have h := c1_threshold_failures_open_breaker 3 30000 0 (by decide) [5, 6, 7] (by decide)
  have h2 := h.2 30006 (.failure ()) (by decide)
  exact ⟨h.1, h2.2.1, h2.1⟩

/-- Breaker states reachable from a freshly constructed breaker by any
sequence of `execute` calls. -/
inductive Reachable (b0 : CircuitBreaker) : CircuitBreaker → Prop
  | refl : Reachable b0 b0
  | step {b : CircuitBreaker} (t : Nat) (c : CallOutcome Unit Unit) :
      Reachable b0 b → Reachable b0 (execute b t c).breaker

/-- A rejected (breaker-open) call leaves the breaker untouched. -/
theorem execute_breaker_skip {α ε : Type} (b : CircuitBreaker) (t : Nat)
    (c : CallOutcome α ε) (h1 : b.state = .open_) (h2 : t < b.nextAttempt) :
    execute b t c = { outcome := .breakerOpen, breaker := b, invoked := false } := by
  rcases c with a | e <;> simp [execute, h1, h2]

/-- A successful invoked call closes the breaker and zeroes the counter. -/
theorem execute_breaker_success {α ε : Type} (b : CircuitBreaker) (t : Nat) (a : α)
    (h : ¬ (b.state = .open_ ∧ t < b.nextAttempt)) :
    (execute b t (.success a : CallOutcome α ε)).breaker
      = { b with failureCount := 0, state := .closed } := by
  by_cases hbo : b.state = .open_
  · have hnl : ¬ t < b.nextAttempt := fun hlt => h ⟨hbo, hlt⟩
    simp [execute, hbo, hnl, onSuccess]
  · simp [execute, hbo, onSuccess]

/-- A failed invoked call increments the counter, opening the breaker at the
threshold; below it the (possibly half-open) state is kept. -/
theorem execute_breaker_failure {α ε : Type} (b : CircuitBreaker) (t : Nat) (e : ε)
    (h : ¬ (b.state = .open_ ∧ t < b.nextAttempt)) :
    (execute b t (.failure e : CallOutcome α ε)).breaker
      = if b.failureThreshold ≤ b.failureCount + 1 then
          { b with failureCount := b.failureCount + 1, state := .open_
                   nextAttempt := t + b.resetTimeout }
        else
          { b with failureCount := b.failureCount + 1
                   state := if b.state = .open_ then .halfOpen else b.state } := by
  by_cases hbo : b.state = .open_
  · have hnl : ¬ t < b.nextAttempt := fun hlt => h ⟨hbo, hlt⟩
    by_cases hle : b.failureThreshold ≤ b.failureCount + 1 <;>
      simp [execute, hbo, hnl, hle, onFailure]
  · by_cases hle : b.failureThreshold ≤ b.failureCount + 1 <;>
      simp [execute, hbo, hle, onFailure]

/-- Invariant of reachable breakers: the configuration fields never change,
and an `OPEN` breaker has accumulated at least `failureThreshold` failures. -/
theorem reachable_invariant (f rt n0 : Nat) (b : CircuitBreaker)
    (h : Reachable (CircuitBreaker.mk0 f rt n0) b) :
    b.failureThreshold = f ∧ b.resetTimeout = rt ∧
    (b.state = .open_ → f ≤ b.failureCount) := by
  induction h with
  | refl => exact ⟨rfl, rfl, by intro h; simp [CircuitBreaker.mk0] at h⟩
  | step t c hr ih =>
    rename_i b'
    obtain ⟨hthr, hrt, hopen⟩ := ih
    by_cases hskip : b'.state = .open_ ∧ t < b'.nextAttempt
    · rw [execute_breaker_skip b' t c hskip.1 hskip.2]
      exact ⟨hthr, hrt, fun _ => hopen hskip.1⟩
    · rcases c with a | e
      · rw [execute_breaker_success b' t a hskip]
        exact ⟨hthr, hrt, by intro h; simp at h⟩
      · rw [execute_breaker_failure b' t e hskip]
        by_cases hle : b'.failureThreshold ≤ b'.failureCount + 1
        · rw [if_pos hle]
          rw [hthr] at hle
          exact ⟨hthr, hrt, fun _ => hle⟩
        · rw [if_neg hle]
          refine ⟨hthr, hrt, ?_⟩
          intro hst
          by_cases hbo : b'.state = .open_ <;> simp [hbo] at hst

/-- C6:  For a reachable breaker in the `OPEN` state, a call at or after
`nextAttempt` behaves exactly as a call on the same breaker moved to
`HALF_OPEN` and does invoke the wrapped operation; a successful trial closes
the breaker and zeroes the counter, a failed trial re-opens it with
`nextAttempt = now + resetTimeout`; and any invoked successful call, from any
breaker state, leaves the failure counter at zero. -/
theorem c6_halfopen_trial (f rt n0 now : Nat) (b : CircuitBreaker)
    (hr : Reachable (CircuitBreaker.mk0 f rt n0) b)
    (hopen : b.state = .open_) (hnow : b.nextAttempt ≤ now) :
    (∀ c : CallOutcome Unit Unit,
      execute b now c = execute { b with state := .halfOpen } now c ∧
      (execute b now c).invoked = true) ∧
    ((execute b now (.success () : CallOutcome Unit Unit)).breaker.state = .closed ∧
     (execute b now (.success () : CallOutcome Unit Unit)).breaker.failureCount = 0) ∧
    ((execute b now (.failure () : CallOutcome Unit Unit)).breaker.state = .open_ ∧
     (execute b now (.failure () : CallOutcome Unit Unit)).breaker.nextAttempt
        = now + b.resetTimeout) ∧
    (∀ (b' : CircuitBreaker) (t : Nat),
      (execute b' t (.success () : CallOutcome Unit Unit)).invoked = true →
      (execute b' t (.success () : CallOutcome Unit Unit)).breaker.failureCount = 0) := by
  obtain ⟨hthr, _, hcnt⟩ := reachable_invariant f rt n0 b hr
  have hge : f ≤ b.failureCount := hcnt hopen
  have hnolt : ¬ now < b.nextAttempt := by omega
  have hskip : ¬ (b.state = .open_ ∧ now < b.nextAttempt) := by
    intro hc; exact hnolt hc.2
  have htrip : b.failureThreshold ≤ b.failureCount + 1 := by rw [hthr]; omega
  refine ⟨?_, ?_, ?_, ?_⟩
  · intro c
    constructor
    · rcases c with a | e <;>
        simp [execute, hopen, hnolt, onSuccess, onFailure]
    · rcases c with a | e <;> simp [execute, hopen, hnolt]
  · rw [execute_breaker_success b now () hskip]
    exact ⟨rfl, rfl⟩
  · rw [execute_breaker_failure b now () hskip, if_pos htrip]
    exact ⟨rfl, rfl⟩
  · intro b' t hinv
    by_cases hskip' : b'.state = .open_ ∧ t < b'.nextAttempt
    · rw [execute_breaker_skip b' t _ hskip'.1 hskip'.2] at hinv
      simp at hinv
    · rw [execute_breaker_success b' t () hskip']

/-- Witness for C6: a breaker with threshold 1 opened by one failure at time
0 (reset timeout 10); the trial at time 10 closes it on success, and on
failure re-opens it with `nextAttempt = 20`. -/
theorem c6_halfopen_trial_witness :
    ((execute (execute (CircuitBreaker.mk0 1 10 0) 0
        (.failure () : CallOutcome Unit Unit)).breaker 10
        (.success () : CallOutcome Unit Unit)).breaker.state = .closed ∧
     (execute (execute (CircuitBreaker.mk0 1 10 0) 0
        (.failure () : CallOutcome Unit Unit)).breaker 10
        (.success () : CallOutcome Unit Unit)).breaker.failureCount = 0) ∧
    ((execute (execute (CircuitBreaker.mk0 1 10 0) 0
        (.failure () : CallOutcome Unit Unit)).breaker 10
        (.failure () : CallOutcome Unit Unit)).breaker.state = .open_ ∧
     (execute (execute (CircuitBreaker.mk0 1 10 0) 0
        (.failure () : CallOutcome Unit Unit)).breaker 10
        (.failure () : CallOutcome Unit Unit)).breaker.nextAttempt = 20) := by
  have hr : Reachable (CircuitBreaker.mk0 1 10 0)
      (execute (CircuitBreaker.mk0 1 10 0) 0
        (.failure () : CallOutcome Unit Unit)).breaker :=
    Reachable.step 0 (.failure ()) Reachable.refl
  have h := c6_halfopen_trial 1 10 0 10
    (execute (CircuitBreaker.mk0 1 10 0) 0 (.failure () : CallOutcome Unit Unit)).breaker
    hr (by decide) (by decide)
  refine ⟨h.2.1, h.2.2.1.1, ?_⟩
  have := h.2.2.1.2
  rw [this]
  decide

/-! ## retryWithBackoff (src/unnamed/part_001, lines 94-106)

The loop `for (let attempt = 1; attempt <= maxRetries; attempt++)` is embedded
as structural recursion over the list of attempt indices `[1, …, maxRetries]`.
The behaviour of `fn` on its k-th invocation is the argument `calls k`. The
trace records the returned value (`none` models the `undefined` the function
returns if the loop body never runs), how many times `fn` was invoked, and
the backoff delays slept between consecutive attempts. -/

/-- The error taxonomy the spec distinguishes; `retryWithBackoff` itself sees
only an opaque thrown error of either kind. -/
inductive UpstreamError
  | transport (msg : String)
  | application (status : Nat) (msg : String)
deriving DecidableEq, Repr

structure RetryTrace (α ε : Type) where
  result : Option (Except ε α)
  invocations : Nat
  delays : List Nat

/-- `Math.min(1000 * Math.pow(2, attempt), 10000)` (line 101). -/
def retryDelay (attempt : Nat) : Nat := min (1000 * 2 ^ attempt) 10000

def retryList {α ε : Type} (calls : Nat → CallOutcome α ε) (maxRetries : Nat) :
    List Nat → RetryTrace α ε
  | [] => { result := none, invocations := 0, delays := [] }
  | a :: rest =>
    match calls a with
    | .success x => { result := some (.ok x), invocations := 1, delays := [] }
    | .failure e =>
      if a = maxRetries then
        { result := some (.error e), invocations := 1, delays := [] }
      else
        let r := retryList calls maxRetries rest
        { result := r.result, invocations := r.invocations + 1
          delays := retryDelay a :: r.delays }

def retryWithBackoff {α ε : Type} (calls : Nat → CallOutcome α ε)
    (maxRetries : Nat) : RetryTrace α ε :=
  retryList calls maxRetries (List.range' 1 maxRetries)

/-- How the breaker sees the promise returned by
`goBreaker.execute(() => retryWithBackoff(...))` (part_001, lines 175-179):
it rejects exactly when the retry loop threw, and otherwise resolves
(possibly with `undefined`). -/
def retryAsCall {α ε : Type} (r : RetryTrace α ε) : CallOutcome (Option α) ε :=
  match r.result with
  | some (.error e) => .failure e
  | some (.ok a) => .success (some a)
  | none => .success none

theorem retryList_invocations_le {α ε : Type} (calls : Nat → CallOutcome α ε)
    (m : Nat) (l : List Nat) : (retryList calls m l).invocations ≤ l.length := by
  induction l with
  | nil => simp [retryList]
  | cons a rest ih =>
    simp only [retryList]
    rcases calls a with x | e
    · simp
    · by_cases ha : a = m
      · simp [ha]
      · simp only [if_neg ha, List.length_cons]
        omega

theorem retryList_all_fail {α ε : Type} (calls : Nat → CallOutcome α ε)
    (m : Nat) (err : Nat → ε)
    (hcall : ∀ k, 1 ≤ k → k ≤ m → calls k = .failure (err k)) :
    ∀ s n, 1 ≤ s → s + n = m + 1 → 1 ≤ n →
      retryList calls m (List.range' s n)
        = { result := some (.error (err m)), invocations := n
            delays := (List.range' s (n - 1)).map retryDelay } := by
  intro s n
  induction n generalizing s with
  | zero => omega
  | succ n ih =>
    intro hs hsum _
    rcases Nat.eq_zero_or_pos n with hn0 | hnpos
    · subst hn0
      have hsm : s = m := by omega
      subst hsm
      simp [List.range', retryList, hcall s hs (by omega)]
    · have hsm : s ≠ m := by omega
      have hrest := ih (s + 1) (by omega) (by omega) hnpos
      simp only [List.range', retryList, hcall s hs (by omega), if_neg hsm, hrest]
      have hmap : List.range' s (n + 1 - 1)
          = s :: List.range' (s + 1) (n - 1) := by
        have : n + 1 - 1 = (n - 1) + 1 := by omega
        rw [this, List.range'_succ]
      rw [hmap]
      simp

/-- C7:  `retryWithBackoff(fn, maxAttempts)` invokes `fn` at most
`maxAttempts` times; when every attempt fails, it makes exactly `maxAttempts`
invocations, sleeps `min(1000·2^attempt, 10000)` after each failed attempt
`1 … maxAttempts-1`, and propagates the error of the final attempt unchanged;
and a breaker that invokes one such fully exhausted retry sequence counts it
as exactly one failure. -/
theorem c7_retry_backoff {α : Type} (calls : Nat → CallOutcome α UpstreamError)
    (m : Nat) (err : Nat → UpstreamError) (hm : 1 ≤ m)
    (hcall : ∀ k, 1 ≤ k → k ≤ m → calls k = .failure (err k)) :
    (∀ g : Nat → CallOutcome α UpstreamError,
      (retryWithBackoff g m).invocations ≤ m) ∧
    (retryWithBackoff calls m).invocations = m ∧
    (retryWithBackoff calls m).result = some (.error (err m)) ∧
    (retryWithBackoff calls m).delays
      = (List.range' 1 (m - 1)).map retryDelay ∧
    ∀ (b : CircuitBreaker) (now : Nat),
      ¬ (b.state = .open_ ∧ now < b.nextAttempt) →
      (execute b now (retryAsCall (retryWithBackoff calls m))).breaker.failureCount
        = b.failureCount + 1 := by
  have hall := retryList_all_fail calls m err hcall 1 m le_rfl (by omega) hm
  refine ⟨?_, ?_, ?_, ?_, ?_⟩
  · intro g
    have := retryList_invocations_le g m (List.range' 1 m)
    simpa [retryWithBackoff] using this
  · simp [retryWithBackoff, hall]
  · simp [retryWithBackoff, hall]
  · simp [retryWithBackoff, hall]
  · intro b now hskip
    have hfail : retryAsCall (retryWithBackoff calls m)
        = .failure (err m) := by
      simp [retryAsCall, retryWithBackoff, hall]
    rw [hfail, execute_breaker_failure b now (err m) hskip]
    split <;> rfl

/-- Witness for C7: three attempts all rejecting with the same transport
error; the loop runs 3 times, sleeps 2000 ms then 4000 ms, rethrows the last
error, and a fresh breaker records exactly one failure. -/
theorem c7_retry_backoff_witness :
    (retryWithBackoff (fun _ => (.failure (.transport "ECONNREFUSED")
        : CallOutcome Unit UpstreamError)) 3).invocations = 3 ∧
    (retryWithBackoff (fun _ => (.failure (.transport "ECONNREFUSED")
        : CallOutcome Unit UpstreamError)) 3).result
      = some (.error (.transport "ECONNREFUSED")) ∧
    (retryWithBackoff (fun _ => (.failure (.transport "ECONNREFUSED")
        : CallOutcome Unit UpstreamError)) 3).delays = [2000, 4000] ∧
    (execute (CircuitBreaker.mk0 3 30000 0) 7
      (retryAsCall (retryWithBackoff (fun _ => (.failure (.transport "ECONNREFUSED")
        : CallOutcome Unit UpstreamError)) 3))).breaker.failureCount = 1 := by
  have h := c7_retry_backoff (fun _ => (.failure (.transport "ECONNREFUSED")
      : CallOutcome Unit UpstreamError)) 3 (fun _ => .transport "ECONNREFUSED")
    (by decide) (fun _ _ _ => rfl)
  refine ⟨h.2.1, h.2.2.1, ?_, ?_⟩
  · rw [h.2.2.2.1]; rfl
  · exact h.2.2.2.2 (CircuitBreaker.mk0 3 30000 0) 7 (by decide)

theorem retryList_pos {α ε : Type} (calls : Nat → CallOutcome α ε) (m a : Nat)
    (l : List Nat) : 1 ≤ (retryList calls m (a :: l)).invocations := by
  simp only [retryList]
  rcases calls a with x | e
  · simp
  · by_cases h : a = m <;> simp [h]

/-- An operation whose first attempt fails with an application-level (4xx)
error and whose later attempts succeed. -/
def appErrorCalls : Nat → CallOutcome Unit UpstreamError :=
  fun k => if k = 1 then .failure (.application 400 "Bad Request") else .success ()

/-- C8 counterexample:  `retryWithBackoff` catches every thrown error
without inspecting its kind, so a 4xx-equivalent application error on the
first attempt is retried: with `maxRetries = 3` the operation is invoked a
second time, which succeeds and masks the application error instead of
surfacing it immediately. -/
theorem c8_application_error_is_retried :
    (retryWithBackoff appErrorCalls 3).invocations = 2 ∧
    (retryWithBackoff appErrorCalls 3).result = some (.ok ()) := by
  exact ⟨rfl, rfl⟩

/-- C8 amended:  The retry loop in `retryWithBackoff` is error-kind blind:
any rejection of a non-final attempt — transport or application-level alike —
triggers another attempt, and only a fulfilled (successful) response stops
the retrying early, regardless of how semantically empty its payload is. -/
theorem c8_retry_is_kind_blind {α : Type}
    (calls : Nat → CallOutcome α UpstreamError) (m : Nat) :
    (∀ e : UpstreamError, 2 ≤ m → calls 1 = .failure e →
      2 ≤ (retryWithBackoff calls m).invocations) ∧
    (∀ a : α, 1 ≤ m → calls 1 = .success a →
      (retryWithBackoff calls m).invocations = 1 ∧
      (retryWithBackoff calls m).result = some (.ok a)) := by
  constructor
  · intro e hm hfail
    have hm1 : m = (m - 1) + 1 := by omega
    have hr : List.range' 1 m = 1 :: List.range' 2 (m - 1) := by
      conv_lhs => rw [hm1]
      rw [List.range'_succ]
    have h1m : (1 : Nat) ≠ m := by omega
    have hr2 : List.range' 2 (m - 1) = 2 :: List.range' 3 (m - 2) := by
      have : m - 1 = (m - 2) + 1 := by omega
      rw [this, List.range'_succ]
    simp only [retryWithBackoff, hr, retryList, hfail, h1m, if_false]
    rw [hr2]
    have := retryList_pos calls m 2 (List.range' 3 (m - 2))
    omega
  · intro a hm hsucc
    have hm1 : m = (m - 1) + 1 := by omega
    have hr : List.range' 1 m = 1 :: List.range' 2 (m - 1) := by
      conv_lhs => rw [hm1]
      rw [List.range'_succ]
    simp [retryWithBackoff, hr, retryList, hsucc]

/-- Witness for the amended C8: the first-attempt application error above is
retried (≥ 2 invocations), while an immediately successful — even if
semantically empty — response is invoked exactly once. -/
theorem c8_retry_is_kind_blind_witness :
    2 ≤ (retryWithBackoff appErrorCalls 3).invocations ∧
    (retryWithBackoff (fun _ => (.success () : CallOutcome Unit UpstreamError))
        3).invocations = 1 := by
  refine ⟨?_, ?_⟩
  · exact (c8_retry_is_kind_blind appErrorCalls 3).1
      (.application 400 "Bad Request") (by decide) rfl
  · exact ((c8_retry_is_kind_blind
      (fun _ => (.success () : CallOutcome Unit UpstreamError)) 3).2
      () (by decide) rfl).1

/-! ## The `/positions` express handler and its cache
(src/unnamed/part_001: lines 8-10 and 169-240)

`let lastKnownPositions = []` is module-level state threaded explicitly. The
two breaker+retry wrapped upstream fetches are abstracted by their outcomes:
`ok payload` for a fulfilled axios promise, `fail e` for any rejection
(network error, timeout, exhausted retries, or the breaker-open error). -/

inductive FetchOutcome (υ : Type)
  | ok (payload : υ)
  | fail (e : String)
deriving DecidableEq, Repr

/-- JavaScript truthiness of an array value: every array object — including
`[]` — is truthy, so `if (lastKnownPositions)` never takes the else branch. -/
def arrayTruthy {π : Type} (_ : List π) : Bool := true

/-- The body the handler responds with: either the spread of an upstream
payload (`{...goResponse.data, …}`) or an explicit positions list. -/
inductive RespBody (π υ : Type)
  | passthrough (payload : υ)
  | list (positions : List π)
deriving DecidableEq, Repr

structure PosResponse (π υ : Type) where
  status : Nat
  success : Option Bool
  source : String
  reliability : Option String
  body : RespBody π υ
deriving DecidableEq, Repr

/-- `app.get('/positions')`: try Go, fall back to Python, then to the cache,
then to the explicit empty 503 response. Returns the response together with
the (unchanged) cache. -/
def positionsHandler {π υ : Type} (cache : List π)
    (goFetch pyFetch : FetchOutcome υ) : PosResponse π υ × List π :=
  match goFetch with
  | .ok g =>
    ({ status := 200, success := none, source := "go_api"
       reliability := some "primary", body := .passthrough g }, cache)
  | .fail _ =>
    match pyFetch with
    | .ok p =>
      ({ status := 200, success := none, source := "python_fallback"
         reliability := some "backup", body := .passthrough p }, cache)
    | .fail _ =>
      if arrayTruthy cache then
        ({ status := 200, success := some true, source := "cache"
           reliability := some "degraded", body := .list cache }, cache)
      else
        ({ status := 503, success := some false, source := "none"
           reliability := none, body := .list [] }, cache)

/-- The module initialiser `let lastKnownPositions = [];` (line 9). -/
def initialCache {π : Type} : List π := []

/-- The cache value after serving any sequence of `/positions` requests. -/
def runRequests {π υ : Type} (cache : List π) :
    List (FetchOutcome υ × FetchOutcome υ) → List π
  | [] => cache
  | (g, p) :: rest => runRequests (positionsHandler cache g p).2 rest

/-- C10:  `lastKnownPositions` starts as `[]` and no request ever changes
it; since a JavaScript array is truthy even when empty, a request during
which both upstreams fail is always answered `200 / success:true /
source:"cache" / reliability:"degraded"` with the (empty) cached list, and no
reachable input produces the `source:"none"` / 503 branch. -/
theorem c10_cache_branch_shadows_none {π υ : Type} :
    (∀ (cache : List π) (g p : FetchOutcome υ),
      (positionsHandler cache g p).2 = cache) ∧
    (∀ reqs : List (FetchOutcome υ × FetchOutcome υ),
      runRequests (initialCache (π := π)) reqs = []) ∧
    (∀ (cache : List π) (eg ep : String),
      (positionsHandler cache (.fail eg) (.fail ep) : PosResponse π υ × List π).1
        = { status := 200, success := some true, source := "cache"
            reliability := some "degraded", body := .list cache }) ∧
    (∀ (cache : List π) (g p : FetchOutcome υ),
      (positionsHandler cache g p).1.source ≠ "none" ∧
      (positionsHandler cache g p).1.status ≠ 503) := by
  have hpres : ∀ (cache : List π) (g p : FetchOutcome υ),
      (positionsHandler cache g p).2 = cache := by
    intro cache g p
    rcases g with g | eg
    · rfl
    · rcases p with p | ep
      · rfl
      · simp [positionsHandler, arrayTruthy]
  refine ⟨hpres, ?_, ?_, ?_⟩
  · intro reqs
    have : ∀ (reqs : List (FetchOutcome υ × FetchOutcome υ)) (cache : List π),
        runRequests cache reqs = cache := by
      intro reqs
      induction reqs with
      | nil => intro cache; rfl
      | cons gp rest ih =>
        intro cache
        rcases gp with ⟨g, p⟩
        rw [runRequests, hpres, ih]
    exact this reqs initialCache
  · intro cache eg ep
    simp [positionsHandler, arrayTruthy]
  · intro cache g p
    rcases g with g | eg
    · exact ⟨by simp [positionsHandler], by simp [positionsHandler]⟩
    · rcases p with p | ep
      · exact ⟨by simp [positionsHandler], by simp [positionsHandler]⟩
      · constructor <;> simp [positionsHandler, arrayTruthy]

/-- C2 code bug:  Evaluating the handler at the failing input — both
upstreams down, cache still at its initial empty value — shows the code
answers `200 / success:true / source:"cache"` with empty data instead of the
specified `503 / success:false / source:"none"` snapshot: the guard
`if (lastKnownPositions)` is satisfied by the truthy empty array, and nothing
ever writes the cache, so the intended empty-snapshot branch is dead code. -/
theorem c2_empty_cache_still_answers_cache :
    (positionsHandler (initialCache : List Unit) (.fail "go down")
        (.fail "python down") : PosResponse Unit Unit × List Unit).1
      = { status := 200, success := some true, source := "cache"
          reliability := some "degraded", body := .list [] } := by
  rfl

/-! ## TradingBackendService (src/src/services/tradingBackend.ts)

Prices and quantities are embedded as `Int`; a field that JavaScript may
leave `undefined` is an `Option`. A rejected `fetch` (network error, non-ok
status where the code checks it, or JSON parse failure) is `FetchOutcome.fail`
carrying the error message. -/

/-- One element of the Go API's `data.positions` array, with the exact field
names the service reads (`p.tradingSymbol`, `p.qty`, `p.avg`, `p.ltp`,
`p.pnL`, `p.product`, `p.exchange`, `p.entryTime`); any may be absent. -/
structure GoRawPosition where
  tradingSymbol : Option String
  symbol : Option String
  qty : Option Int
  avg : Option Int
  ltp : Option Int
  pnL : Option Int
  product : Option String
  exchange : Option String
  entryTime : Option String
deriving DecidableEq, Repr

/-- The `Position` shape of the service layer (tradingBackend.ts lines 9-19);
fields are optional because the Go mapping copies possibly-absent keys. -/
structure Position where
  tradingsymbol : Option String
  quantity : Option Int
  average_price : Option Int
  last_price : Option Int
  mtm : Option Int
  product : Option String
  exchange : Option String
  orderTime : Option String
deriving DecidableEq, Repr

/-- The per-position mapping of the Go branch of `getPositions`
(lines 189-198): field renames only — `mtm` is copied from the
upstream-reported `p.pnL`. -/
def mapGoPosition (p : GoRawPosition) : Position :=
  { tradingsymbol := p.tradingSymbol
    quantity := p.qty
    average_price := p.avg
    last_price := p.ltp
    mtm := p.pnL
    product := p.product
    exchange := p.exchange
    orderTime := p.entryTime }

/-- One element of the Python `/positions` response's `data` array. -/
structure PyRawPosition where
  tradingsymbol : String
  quantity : Int
  average_price : Int
  last_price : Int
  product : String
  exchange : String
deriving DecidableEq, Repr

/-- The per-position mapping of the Python branch (lines 212-218):
`{...p, mtm: (p.last_price - p.average_price) * p.quantity}`. -/
def mapPyPosition (p : PyRawPosition) : Position :=
  { tradingsymbol := some p.tradingsymbol
    quantity := some p.quantity
    average_price := some p.average_price
    last_price := some p.last_price
    mtm := some ((p.last_price - p.average_price) * p.quantity)
    product := some p.product
    exchange := some p.exchange
    orderTime := none }

/-- The parsed body of `GET {goUrl}/api/positions`. -/
structure GoPositionsPayload where
  success : Bool
  positions : List GoRawPosition
  totalPnL : Int
deriving DecidableEq, Repr

/-- The parsed body of `GET {pythonUrl}/positions`; `data` may be absent
(`data.data || []`). -/
structure PyPositionsPayload where
  data : Option (List PyRawPosition)
deriving DecidableEq, Repr

structure PositionsResult where
  positions : List Position
  total_mtm : Int
deriving DecidableEq, Repr

/-- `positions.reduce((sum, p) => sum + (p.mtm || 0), 0)` (line 220). -/
def sumMtm (ps : List Position) : Int :=
  ps.foldl (fun s p => s + p.mtm.getD 0) 0

/-- The Python-fallback part of `getPositions` (lines 207-222). -/
def pythonPositions : FetchOutcome PyPositionsPayload → PositionsResult
  | .fail _ => { positions := [], total_mtm := 0 }
  | .ok d =>
    let ps := (d.data.getD []).map mapPyPosition
    { positions := ps, total_mtm := sumMtm ps }

/-- `getPositions` (lines 180-228). When `useGoAPI` is set and the Go fetch
fulfils with `success: true`, the Go positions are mapped and `total_mtm` is
taken from the upstream `data.totalPnL`; on `success: false` the Python
fallback runs; a rejected Go fetch jumps to the outer catch, which returns
the empty result (the Python fallback is not reached). -/
def getPositions (useGoAPI : Bool) (goFetch : FetchOutcome GoPositionsPayload)
    (pyFetch : FetchOutcome PyPositionsPayload) : PositionsResult :=
  if useGoAPI then
    match goFetch with
    | .fail _ => { positions := [], total_mtm := 0 }
    | .ok g =>
      if g.success then
        { positions := g.positions.map mapGoPosition, total_mtm := g.totalPnL }
      else
        pythonPositions pyFetch
  else
    pythonPositions pyFetch

/-- The Scenario-1 Upstream B payload `{symbol:"X", qty:50, avg:100, ltp:110}`:
no `tradingSymbol` and no `pnL` key. -/
def scenario1Raw : GoRawPosition :=
  { tradingSymbol := none, symbol := some "X", qty := some 50, avg := some 100
    ltp := some 110, pnL := none, product := none, exchange := none
    entryTime := none }

/-- C3 counterexample:  The Go branch copies `p.pnL` into `mtm` instead of
computing `(last_price - average_price) * quantity`: on the Scenario-1 payload
the normalized position carries `quantity 50`, `average_price 100`,
`last_price 110`, but its `mtm` is absent (`undefined`), not `500` — and the
symbol is absent too, since the branch reads only `p.tradingSymbol`. -/
theorem c3_go_branch_mtm_not_recomputed :
    (mapGoPosition scenario1Raw).quantity = some 50 ∧
    (mapGoPosition scenario1Raw).average_price = some 100 ∧
    (mapGoPosition scenario1Raw).last_price = some 110 ∧
    (mapGoPosition scenario1Raw).mtm = none ∧
    (mapGoPosition scenario1Raw).mtm ≠ some ((110 - 100) * 50) ∧
    (getPositions true
        (.ok { success := true, positions := [scenario1Raw], totalPnL := 0 })
        (.fail "unused")).positions
      = [mapGoPosition scenario1Raw] := by
  refine ⟨rfl, rfl, rfl, rfl, by simp [mapGoPosition, scenario1Raw], rfl⟩

/-- C3 amended:  MTM is computed locally as
`(last_price - average_price) * quantity` only on the Python fallback path;
the Go path trusts the upstream-reported `pnL` field verbatim (absent fields
included), so the Scenario-1 payload yields the claimed quantity and prices
but an undefined `mtm` rather than `500`. -/
theorem c3_mtm_local_only_on_python_path :
    (∀ p : PyRawPosition,
      (mapPyPosition p).mtm = some ((p.last_price - p.average_price) * p.quantity)) ∧
    (∀ p : GoRawPosition, (mapGoPosition p).mtm = p.pnL) ∧
    (mapGoPosition scenario1Raw).quantity = some 50 ∧
    (mapGoPosition scenario1Raw).average_price = some 100 ∧
    (mapGoPosition scenario1Raw).last_price = some 110 ∧
    (mapGoPosition scenario1Raw).mtm = none := by
  exact ⟨fun p => rfl, fun p => rfl, rfl, rfl, rfl, rfl⟩

/-- A Go payload whose upstream `totalPnL` disagrees with the sum of its
per-position `pnL` values. -/
def mismatchedGoPayload : GoPositionsPayload :=
  { success := true
    positions := [{ tradingSymbol := some "A", symbol := none, qty := some 1
                    avg := some 2, ltp := some 3, pnL := some 5, product := none
                    exchange := none, entryTime := none }]
    totalPnL := 999 }

/-- C9 counterexample:  On the Go path `total_mtm` is the independently
supplied upstream `data.totalPnL`, not the sum of the constituent positions'
MTM values: a payload reporting `totalPnL = 999` over a single position with
`pnL = 5` produces a snapshot whose `total_mtm` (999) differs from the sum of
its positions' MTMs (5). -/
theorem c9_go_total_mtm_independent :
    (getPositions true (.ok mismatchedGoPayload) (.fail "unused")).total_mtm = 999 ∧
    sumMtm (getPositions true (.ok mismatchedGoPayload) (.fail "unused")).positions = 5 ∧
    (getPositions true (.ok mismatchedGoPayload) (.fail "unused")).total_mtm ≠
      sumMtm (getPositions true (.ok mismatchedGoPayload) (.fail "unused")).positions := by
  refine ⟨rfl, rfl, by decide⟩

/-- C9 amended:  The sum invariant holds for every snapshot produced by
the Python fallback path and for the empty error fallback, whose `total_mtm`
is 0, the sum over no positions; on the Go path, however, `total_mtm` is the
upstream-reported `data.totalPnL`, supplied independently of the positions. -/
theorem c9_total_mtm_sum_only_on_python_path :
    (∀ f : FetchOutcome PyPositionsPayload,
      (pythonPositions f).total_mtm = sumMtm (pythonPositions f).positions) ∧
    (∀ (f : FetchOutcome PyPositionsPayload) (u : Bool)
        (g : FetchOutcome GoPositionsPayload),
      getPositions false g f = pythonPositions f ∧
      getPositions u (.fail "netdown") f
        = if u then { positions := [], total_mtm := 0 } else pythonPositions f) ∧
    (∀ (g : GoPositionsPayload) (f : FetchOutcome PyPositionsPayload),
      g.success = true →
      (getPositions true (.ok g) f).total_mtm = g.totalPnL) := by
  refine ⟨?_, ?_, ?_⟩
  · intro f
    rcases f with d | e
    · rfl
    · rfl
  · intro f u g
    refine ⟨rfl, ?_⟩
    rcases u with _ | _ <;> rfl
  · intro g f hs
    simp [getPositions, hs]

/-- A one-element Python payload: `ltp 110, avg 100, qty 50`. -/
def samplePyPayload : PyPositionsPayload :=
  { data := some [{ tradingsymbol := "X", quantity := 50, average_price := 100
                    last_price := 110, product := "NRML", exchange := "NFO" }] }

/-- Witness for the amended C9: the Python fallback snapshot for one
position `(ltp 110, avg 100, qty 50)` has `total_mtm = 500 =` the sum of its
members, and a Go payload with `success: true` passes `totalPnL` through. -/
theorem c9_total_mtm_sum_only_on_python_path_witness :
    (pythonPositions (.ok samplePyPayload)).total_mtm = 500 ∧
    (getPositions true (.ok mismatchedGoPayload) (.fail "x")).total_mtm = 999 := by
  constructor
  · rfl
  · exact (c9_total_mtm_sum_only_on_python_path.2.2 mismatchedGoPayload
      (.fail "x") rfl)

/-! ## Router operations and exception propagation
(src/src/services/tradingBackend.ts; src/unnamed/part_001 lines 110-123)

Each public operation is embedded as a function of its upstream fetch
outcomes returning `Except JsError _`: `.error e` marks the code paths where
the TypeScript `catch` block rethrows (`throw error`), `.ok` the paths that
return a value. -/

abbrev JsError := String

/-- The normalized `ExecutionResult` (tradingBackend.ts lines 90-107),
restricted to the fields the modelled operations construct or inspect. -/
structure ExecutionResult where
  success : Bool
  message : String
  error : Option String
  timestamp : String
deriving DecidableEq, Repr

/-- `getAnalysis` (lines 142-151): a non-ok status is thrown, and the catch
block logs and rethrows, so every fetch failure propagates to the caller. -/
def getAnalysis {α : Type} (f : FetchOutcome α) : Except JsError α :=
  match f with
  | .ok d => .ok d
  | .fail e => .error e

/-- `closePosition` (lines 363-388): with Go disabled a typed failure is
returned; with Go enabled a rejected fetch is logged and rethrown. -/
def closePosition (useGoAPI : Bool) (now : String)
    (f : FetchOutcome ExecutionResult) : Except JsError ExecutionResult :=
  if useGoAPI then
    match f with
    | .ok r => .ok r
    | .fail e => .error e
  else
    .ok { success := false
          message := "Position management requires Go API. Please enable it in configuration."
          error := none, timestamp := now }

/-- `closeAllPositions` (lines 390-409): same shape as `closePosition`. -/
def closeAllPositions (useGoAPI : Bool) (now : String)
    (f : FetchOutcome ExecutionResult) : Except JsError ExecutionResult :=
  if useGoAPI then
    match f with
    | .ok r => .ok r
    | .fail e => .error e
  else
    .ok { success := false, message := "Bulk operations require Go API"
          error := none, timestamp := now }

inductive Backend
  | python
  | go
deriving DecidableEq, Repr

/-- The parsed body of the Python `/execute_strangle` response. -/
structure PyExecPayload where
  status : String
  message : Option String
deriving DecidableEq, Repr

/-- `executeStrangle` (lines 276-310): routed to Go iff `useGoAPI`, else to
Python; the surrounding catch converts any thrown error into a typed failure
result. Also records which backend the order was sent to. -/
def executeStrangle (useGoAPI : Bool) (now : String)
    (goF : FetchOutcome ExecutionResult) (pyF : FetchOutcome PyExecPayload) :
    ExecutionResult × Backend :=
  if useGoAPI then
    match goF with
    | .ok r => (r, .go)
    | .fail e => ({ success := false, message := "Execution failed"
                    error := some e, timestamp := now }, .go)
  else
    match pyF with
    | .ok d => ({ success := d.status == "success"
                  message := d.message.getD "Executed successfully"
                  error := none, timestamp := now }, .python)
    | .fail e => ({ success := false, message := "Execution failed"
                    error := some e, timestamp := now }, .python)

structure SystemStatus where
  pythonAvailable : Bool
  goAvailable : Bool
  activeBackend : Backend
  analytics : Bool
  execution : Bool
  positionManagement : Bool
  riskManagement : Bool
  autoTrading : Bool
deriving DecidableEq, Repr

/-- `getSystemStatus` (lines 415-454): each probe sits in its own try/catch,
so the operation always returns a status record; the Go probe only runs when
`useGoAPI` is set. -/
def getSystemStatus (useGoAPI pyProbeOk goProbeOk : Bool) : SystemStatus :=
  { pythonAvailable := pyProbeOk
    goAvailable := useGoAPI && goProbeOk
    activeBackend := if useGoAPI then .go else .python
    analytics := true
    execution := true
    positionManagement := useGoAPI
    riskManagement := useGoAPI
    autoTrading := useGoAPI }

/-- C4 counterexample:  `getAnalysis` does propagate an uncaught
exception: its catch block rethrows, so a connection failure reaches the
presentation layer as a thrown error, not as a typed result. -/
theorem c4_getAnalysis_rethrows :
    getAnalysis (.fail "ECONNREFUSED" : FetchOutcome Unit)
      = .error "ECONNREFUSED" ∧
    closePosition true "2026-10-12T00:00:00Z" (.fail "ECONNREFUSED")
      = .error "ECONNREFUSED" := by
  exact ⟨rfl, rfl⟩

/-- C4 amended:  `getPositions`, `executeStrangle` and `getSystemStatus`
return typed results on every upstream failure mode, and
`closePosition`/`closeAllPositions` return a typed failure when the Go API is
disabled; but `getAnalysis` always rethrows a failed fetch, and
`closePosition`/`closeAllPositions` rethrow transport errors when the Go API
is enabled, so those operations do propagate exceptions to the caller. -/
theorem c4_typed_results_amended :
    (∀ e : JsError, getAnalysis (.fail e : FetchOutcome Unit) = .error e) ∧
    (∀ (e : JsError) (n : String),
      closePosition true n (.fail e) = .error e ∧
      closeAllPositions true n (.fail e) = .error e) ∧
    (∀ (n : String) (f : FetchOutcome ExecutionResult),
      (∃ r, closePosition false n f = .ok r ∧ r.success = false) ∧
      (∃ r, closeAllPositions false n f = .ok r ∧ r.success = false)) ∧
    (∀ (e : JsError) (p : FetchOutcome PyPositionsPayload),
      getPositions true (.fail e) p = { positions := [], total_mtm := 0 }) ∧
    (∀ (e : JsError) (g : FetchOutcome GoPositionsPayload),
      getPositions false g (.fail e) = { positions := [], total_mtm := 0 }) ∧
    (∀ (u : Bool) (n : String) (eg ep : JsError),
      (executeStrangle u n (.fail eg) (.fail ep)).1.success = false ∧
      (executeStrangle u n (.fail eg) (.fail ep)).1.error
        = some (if u then eg else ep)) ∧
    (∀ u p g : Bool,
      (getSystemStatus u p g).activeBackend = if u then .go else .python) := by
  refine ⟨fun e => rfl, fun e n => ⟨rfl, rfl⟩, ?_, fun e p => rfl, ?_, ?_, ?_⟩
  · intro n f
    exact ⟨⟨_, rfl, rfl⟩, ⟨_, rfl, rfl⟩⟩
  · intro e g
    rcases g with g | eg <;> rfl
  · intro u n eg ep
    rcases u with _ | _ <;> exact ⟨rfl, rfl⟩
  · intro u p g
    rcases u with _ | _ <;> rfl

/-! ## Execution routing (tradingBackend.ts lines 276-310;
src/unnamed/part_001 lines 59-70 and 110-123) -/

def pythonUrl : String := "http://127.0.0.1:8000"
def goUrl : String := "http://127.0.0.1:8080"

/-- `BACKENDS.python.features`. -/
def pythonFeatures : List String :=
  ["analytics", "greeks", "regime_detection", "historical_analysis"]

/-- `BACKENDS.go.features`. -/
def goFeatures : List String :=
  ["execution", "position_management", "risk_management", "auto_trading"]

/-- `getBackendUrl(feature)` (part_001, lines 110-123): analytics features go
to Python; execution goes to Go when enabled, *falling back to Python*
otherwise; everything else defaults to Python. -/
def getBackendUrl (goEnabled : Bool) (feature : String) : String :=
  if feature ∈ ["analytics", "greeks", "historical"] then pythonUrl
  else if feature = "execution" then (if goEnabled then goUrl else pythonUrl)
  else pythonUrl

/-- C5 counterexample:  With the execution-capable upstream (Go) disabled,
`executeStrangle` silently places the order via Python — an upstream whose
configured feature set does not include `execution` — and reports the Python
attempt's success, instead of returning a typed capability-unavailable
result; `getBackendUrl` likewise resolves the `execution` feature to the
Python URL. -/
theorem c5_silent_python_fallback :
    (executeStrangle false "2026-10-12T00:00:00Z" (.fail "unused")
        (.ok { status := "success", message := some "Executed" })).2
      = .python ∧
    (executeStrangle false "2026-10-12T00:00:00Z" (.fail "unused")
        (.ok { status := "success", message := some "Executed" })).1.success
      = true ∧
    getBackendUrl false "execution" = pythonUrl ∧
    "execution" ∉ pythonFeatures := by
  exact ⟨rfl, rfl, rfl, by decide⟩

/-- C5 amended:  `executeStrangle` is routed to the Go upstream exactly
when the Go API is enabled; when it is disabled the order is silently routed
to Python — whose configured capability set lacks `execution` — and no
capability-unavailable result is ever produced by this operation (only
`closePosition`/`closeAllPositions` return typed capability failures). -/
theorem c5_execution_routing_amended :
    (∀ (n : String) (g : FetchOutcome ExecutionResult)
        (p : FetchOutcome PyExecPayload),
      (executeStrangle true n g p).2 = .go ∧
      (executeStrangle false n g p).2 = .python) ∧
    getBackendUrl true "execution" = goUrl ∧
    getBackendUrl false "execution" = pythonUrl ∧
    "execution" ∈ goFeatures ∧ "execution" ∉ pythonFeatures := by
  refine ⟨?_, rfl, rfl, by decide, by decide⟩
  intro n g p
  constructor
  · rcases g with g | eg <;> rfl
  · rcases p with d | ep <;> rfl

end OIAnalyzer
